import Mathlib

/-!
Shallow embedding of the sneaker-arbitrage ERP core (spreadsheet ingestion,
column mapping, record extraction, and the arbitrage matcher), translated
from the TypeScript sources:

* `utils` (normalizers, header detection),
* `DataManager` inside `Dashboard.tsx` (`extractRecords`, `autoDetectColumns`,
  `handleFileUpload`, `handleConfirmMapping`),
* `ArbitrageAnalyzer` (`processArbitrage`).

JavaScript numbers are modelled as exact rationals (`ℚ`); decimal literals
such as `0.88` become the exact rationals they denote. Cell values are a
small JS-value type covering the shapes a decoded sheet can hold.
-/

/-- JS cell value: a number, a string, `null`, `undefined`, or `NaN`.
`NaN` is kept separate from `num` because it is falsy yet has
`typeof NaN === 'number'`. -/
inductive Value where
  | num (q : ℚ)
  | str (s : String)
  | null
  | undef
  | nan
deriving DecidableEq, Repr

/-- JS truthiness: a number is truthy iff nonzero, a string iff nonempty;
`null`, `undefined` and `NaN` are falsy. -/
def truthy : Value → Bool
  | .num q => decide (q ≠ 0)
  | .str s => decide (s ≠ "")
  | _ => false

/-- Smallest exponent `k` (searched up to 40) with `den ∣ 10 ^ k`, used to
print a rational in decimal notation. -/
def decPow (den : ℕ) : Option ℕ :=
  (List.range 40).find? (fun k => den ∣ 10 ^ k)

/-- JS number-to-string. Exact for integer values (`String(3) = "3"`,
`String(-3) = "-3"`); values with a finite decimal expansion print in
decimal form (JS prints the shortest round-trip decimal of the double);
other rationals fall back to a `num/den` rendering (unreachable for the
values this development evaluates). Exponent notation for very large or
very small magnitudes is not modelled. -/
def jsNumToString (q : ℚ) : String :=
  if q.den = 1 then toString q.num
  else
    match decPow q.den with
    | some k =>
        let n := q.num.natAbs * (10 ^ k / q.den)
        let intPart := n / 10 ^ k
        let fracPart := n % 10 ^ k
        let fracStr := toString fracPart
        let padded := String.mk (List.replicate (k - fracStr.length) '0') ++ fracStr
        (if q.num < 0 then "-" else "") ++ toString intPart ++ "." ++ padded
    | none => toString q.num ++ "/" ++ toString q.den

/-- JS `String(v)` coercion. -/
def jsString : Value → String
  | .num q => jsNumToString q
  | .str s => s
  | .null => "null"
  | .undef => "undefined"
  | .nan => "NaN"

/-- JS `s.trim()`: strip leading and trailing whitespace (computed on the
character list so concrete instances reduce in the kernel). -/
def jsTrim (s : String) : String :=
  String.mk (((s.toList.dropWhile (·.isWhitespace)).reverse.dropWhile (·.isWhitespace)).reverse)

/-- JS `s.toUpperCase()` (ASCII case mapping, which is all the program's
keywords and SKU codes exercise; CJK characters are fixed points of both). -/
def jsToUpper (s : String) : String :=
  String.mk (s.toList.map Char.toUpper)

/-- JS `c.includes(k)`: case-sensitive substring test. -/
def strIncludes (c k : String) : Bool :=
  (c.toList.tails).any (fun t => k.toList.isPrefixOf t)

/-- Value of a run of decimal digit characters, most significant first. -/
def digitsToNat (ds : List Char) : ℕ :=
  ds.foldl (fun acc c => 10 * acc + (c.toNat - '0'.toNat)) 0

/-- First maximal run of decimal digits in a string (regex `/\d+/`),
`none` when the string has no digit. -/
def firstDigitRun (s : String) : Option (List Char) :=
  match s.toList.dropWhile (fun c => !c.isDigit) with
  | [] => none
  | c :: rest => some ((c :: rest).takeWhile (·.isDigit))

/-- Discrete part of JS `parseFloat`: skip leading whitespace, optional
sign, integer digits, optional fraction, optional exponent; trailing
garbage is ignored; `none` models `NaN` (no digits at all). Returns the
signed decimal mantissa `m` and exponent `e` with parsed value
`m * 10 ^ e`; all arithmetic here is on `ℤ`/`ℕ` so concrete inputs
evaluate by `decide`. The `"Infinity"` literal is not modelled. -/
def jsParseFloatParts (s : String) : Option (ℤ × ℤ) :=
  let cs := s.toList.dropWhile (·.isWhitespace)
  let sgn : ℤ := match cs with
    | '-' :: _ => -1
    | _ => 1
  let cs := match cs with
    | '-' :: rest => rest
    | '+' :: rest => rest
    | _ => cs
  let intDs := cs.takeWhile (·.isDigit)
  let cs := cs.dropWhile (·.isDigit)
  let fracDs : List Char := match cs with
    | '.' :: rest => rest.takeWhile Char.isDigit
    | _ => []
  let cs := match cs with
    | '.' :: rest => rest.dropWhile Char.isDigit
    | _ => cs
  if intDs = [] ∧ fracDs = [] then none
  else
    let mant : ℤ := sgn * ((digitsToNat intDs * 10 ^ fracDs.length + digitsToNat fracDs : ℕ) : ℤ)
    let expo : ℤ := match cs with
      | c :: rest =>
          if c = 'e' ∨ c = 'E' then
            let esgn : ℤ := match rest with
              | '-' :: _ => -1
              | _ => 1
            let rest := match rest with
              | '-' :: r => r
              | '+' :: r => r
              | _ => rest
            let eDs := rest.takeWhile (·.isDigit)
            if eDs = [] then 0 else esgn * (digitsToNat eDs : ℤ)
          else 0
      | [] => 0
    some (mant, expo - fracDs.length)

/-- Rational value of a parsed (mantissa, exponent) pair. -/
def ratOfParts (p : ℤ × ℤ) : ℚ :=
  (p.1 : ℚ) * (10 : ℚ) ^ p.2

/-- JS `parseFloat` on a string, as an exact rational (`none` = `NaN`). -/
def jsParseFloat (s : String) : Option ℚ :=
  (jsParseFloatParts s).map ratOfParts

/-- JS `parseFloat(String(v))` on a cell value. For a finite number `n`,
`parseFloat(String(n)) = n`, so the `num` case short-circuits; `null`,
`undefined` and `NaN` stringify to digit-free words, hence `NaN` (`none`). -/
def parseFloatValue : Value → Option ℚ
  | .num q => some q
  | .str s => jsParseFloat s
  | _ => none

-- --- Normalizers (utils: cleanProductCode / extractSalesNum / parseDiscount) ---

/-- `cleanProductCode`: falsy input yields `""`; otherwise
`String(code).trim().toUpperCase()`. -/
def cleanProductCode (code : Value) : String :=
  if truthy code = false then ""
  else jsToUpper (jsTrim (jsString code))

/-- `extractSalesNum`: a numeric input is returned as-is
(`typeof raw === 'number'`); then falsy inputs yield 0; otherwise the first
run of decimal digits of the string form, parsed with `parseInt`, else 0.
`typeof NaN === 'number'`, so JS returns `NaN` at input `NaN`; `NaN` has no
counterpart in `ℚ` and never reaches this function in the program (sheet
cells are numbers or strings), so that case is mapped to 0 here. -/
def extractSalesNum (raw : Value) : ℚ :=
  match raw with
  | .num q => q
  | .nan => 0
  | _ =>
      if truthy raw = false then 0
      else
        match raw with
        | .str s =>
            match firstDigitRun s with
            | some ds => (digitsToNat ds : ℚ)
            | none => 0
        | _ => 0

/-- `parseDiscount`: falsy input yields the default 10; then
`parseFloat(String(raw))`, returning 10 on `NaN` and the parsed number
otherwise (format like 3.6 for 36%). -/
def parseDiscount (raw : Value) : ℚ :=
  if truthy raw = false then 10
  else
    match parseFloatValue raw with
    | none => 10
    | some num => num

-- --- Data model ---

/-- Record category (the `DataType` enum): market-price, supplier-discount,
owned-inventory, in-transit-futures. -/
inductive DataType where
  | MARKET
  | SUPPLIER
  | INVENTORY
  | FUTURE
deriving DecidableEq, Repr

/-- One ingested data row (`ShoeRecord`). -/
structure ShoeRecord where
  id : String
  productCode : String
  size : String
  price : ℚ
  discount : ℚ
  salesRaw : String
  salesNum : ℚ
  platform : String
  sourceFile : String
  dataType : DataType
  updateDate : String
deriving DecidableEq, Repr

/-- One entry of an arbitrage result's sales history (`SalesHistoryItem`). -/
structure SalesHistoryItem where
  date : String
  file : String
  sales : ℚ
  platform : String
deriving DecidableEq, Repr

/-- One per-SKU output of the arbitrage matcher (`ArbitrageResult`). -/
structure ArbitrageResult where
  productCode : String
  tagPrice : ℚ
  costPrice : ℚ
  marketPrice : ℚ
  netRevenue : ℚ
  profit : ℚ
  roi : ℚ
  supplierName : String
  supplierDate : String
  supplierSourceFile : String
  salesVolume : ℚ
  salesHistory : List SalesHistoryItem
  inventoryCount : ℚ
  futureCount : ℚ
deriving DecidableEq, Repr

/-- Column-role mapping: five column indices with `-1` as the "absent"
sentinel (the `{ sku, size, price, discount, sales }` map). -/
structure ColMap where
  sku : Int
  size : Int
  price : Int
  discount : Int
  sales : Int
deriving DecidableEq, Repr

/-- JS `row[i]` on a sheet row: out-of-range (including the `-1` sentinel)
reads give `undefined`. -/
def rowGet (row : List Value) (i : Int) : Value :=
  if i < 0 then Value.undef else row.getD i.toNat Value.undef

-- --- Column Mapper (Dashboard.tsx autoDetectColumns) ---

/-- SKU header keywords of `autoDetectColumns`. -/
def skuKeys : List String := ["货号", "SKU", "款号", "Product Code", "Art No"]

/-- Size header keywords of `autoDetectColumns`. -/
def sizeKeys : List String := ["尺码", "Size", "码数"]

/-- Price header keywords of `autoDetectColumns`. -/
def priceKeys : List String := ["平台最低价", "Price", "价格", "Tag Price", "牌价", "原价"]

/-- Discount header keywords of `autoDetectColumns`. -/
def discountKeys : List String := ["平台平均下单折扣", "折扣", "Discount"]

/-- Sales header keywords of `autoDetectColumns`. -/
def salesKeys : List String := ["销量", "Sales", "累计销量", "热度", "库存", "Quantity"]

/-- Does a trimmed header cell match any keyword of a role
(`[...].some(k => c.includes(k))`)? -/
def matchesAny (c : String) (kws : List String) : Bool :=
  kws.any (fun k => strIncludes c k)

/-- One step of `autoDetectColumns`'s `headerRow.forEach((col, idx) => ...)`:
each role whose keyword list matches the trimmed cell text gets its index
overwritten with the current column index. -/
def autoDetectStep (m : ColMap) (idx : ℕ) (cell : Value) : ColMap :=
  let c := jsTrim (jsString cell)
  let m := if matchesAny c skuKeys then { m with sku := (idx : Int) } else m
  let m := if matchesAny c sizeKeys then { m with size := (idx : Int) } else m
  let m := if matchesAny c priceKeys then { m with price := (idx : Int) } else m
  let m := if matchesAny c discountKeys then { m with discount := (idx : Int) } else m
  if matchesAny c salesKeys then { m with sales := (idx : Int) } else m

/-- `autoDetectColumns`: fold the per-cell step over the enumerated header
row, starting from all-absent (`-1`). -/
def autoDetectColumns (headerRow : List Value) : ColMap :=
  (headerRow.enum).foldl (fun m p => autoDetectStep m p.1 p.2) ⟨-1, -1, -1, -1, -1⟩

-- --- Completeness policy (Dashboard.tsx handleFileUpload) ---

/-- Mandatory-field check of `handleFileUpload`: start from "SKU present",
force incomplete when price is absent on a market-price import or sales is
absent on an owned-inventory / in-transit-futures import, then force
complete when a remembered (saved) mapping was used. -/
def isComplete (usedSavedMap : Bool) (colMap : ColMap) (selectedType : DataType) : Bool :=
  let c := decide (colMap.sku ≠ -1)
  let c := if selectedType = DataType.MARKET ∧ colMap.price = -1 then false else c
  let c := if (selectedType = DataType.INVENTORY ∨ selectedType = DataType.FUTURE) ∧ colMap.sales = -1
    then false else c
  if usedSavedMap then true else c

-- --- Record Extractor (Dashboard.tsx extractRecords) ---

/-- Validation message for a non-numeric price cell. -/
def priceFormatMsg (n : ℕ) (sku raw : String) : String :=
  "行 " ++ toString n ++ " [SKU: " ++ sku ++ "]: 价格格式错误 (值: \"" ++ raw ++
    "\")。建议: 去除货币符号(¥/$)或文本，仅保留数字。"

/-- Validation message for a negative price cell. -/
def negPriceMsg (n : ℕ) (sku raw : String) : String :=
  "行 " ++ toString n ++ " [SKU: " ++ sku ++ "]: 价格不能为负数 (值: \"" ++ raw ++ "\")。"

/-- Validation message for a missing price on a market-price row. -/
def priceMissingMsg (n : ℕ) (sku : String) : String :=
  "行 " ++ toString n ++ " [SKU: " ++ sku ++ "]: 价格缺失。市场数据必须包含价格。"

/-- Validation message for a non-numeric discount cell. -/
def discountFormatMsg (n : ℕ) (sku raw : String) : String :=
  "行 " ++ toString n ++ " [SKU: " ++ sku ++ "]: 折扣格式错误 (值: \"" ++ raw ++
    "\")。建议: 使用数字格式 (如 6.5 表示 65折)。"

/-- Outcome of one field-validation step of `extractRecords`: the value to
store, the validation messages pushed, and whether the row is skipped
(`continue`). -/
structure StepResult where
  val : ℚ
  errs : List String
  skip : Bool
deriving DecidableEq, Repr

/-- Price validation block of `extractRecords` (critical for market-price):
non-blank cell is parsed; `NaN` or a negative value records a problem and
skips the row only for category market-price; a blank/missing cell is a
problem-and-skip for market-price and silently keeps price 0 otherwise. -/
def priceStep (ty : DataType) (map : ColMap) (i : ℕ) (sku : String) (row : List Value) : StepResult :=
  if map.price ≠ -1 then
    let pVal := rowGet row map.price
    if pVal ≠ Value.undef ∧ jsTrim (jsString pVal) ≠ "" then
      match parseFloatValue pVal with
      | none => ⟨0, [priceFormatMsg (i + 1) sku (jsString pVal)], decide (ty = DataType.MARKET)⟩
      | some pNum =>
          if pNum < 0 then ⟨0, [negPriceMsg (i + 1) sku (jsString pVal)], decide (ty = DataType.MARKET)⟩
          else ⟨pNum, [], false⟩
    else if ty = DataType.MARKET then ⟨0, [priceMissingMsg (i + 1) sku], true⟩
    else ⟨0, [], false⟩
  else ⟨0, [], false⟩

/-- Discount validation block of `extractRecords` (critical for
supplier-discount): a non-blank, non-numeric cell records a problem and
skips the row only for category supplier-discount; otherwise the cell goes
through `parseDiscount`, defaulting to 10. -/
def discountStep (ty : DataType) (map : ColMap) (i : ℕ) (sku : String) (row : List Value) : StepResult :=
  if map.discount ≠ -1 then
    let dVal := rowGet row map.discount
    if dVal ≠ Value.undef ∧ jsTrim (jsString dVal) ≠ "" then
      match parseFloatValue dVal with
      | none => ⟨10, [discountFormatMsg (i + 1) sku (jsString dVal)], decide (ty = DataType.SUPPLIER)⟩
      | some _ => ⟨parseDiscount dVal, [], false⟩
    else ⟨10, [], false⟩
  else ⟨10, [], false⟩

/-- Body of `extractRecords`'s row loop for the row at sheet index `i`:
either a record (with the row's validation messages) or no record (row
skipped, messages kept). `Date.now()` in the record id is abstracted as
the parameter `now`. -/
def extractRow (map : ColMap) (ty : DataType) (platform fileName today : String) (now : ℕ)
    (i : ℕ) (row : List Value) : Option ShoeRecord × List String :=
  if row.isEmpty then (none, [])
  else if map.sku = -1 ∨ rowGet row map.sku = Value.undef then (none, [])
  else
    let sku := cleanProductCode (rowGet row map.sku)
    if sku = "" then (none, [])
    else
      let p := priceStep ty map i sku row
      if p.skip then (none, p.errs)
      else
        let d := discountStep ty map i sku row
        if d.skip then (none, p.errs ++ d.errs)
        else
          let salesRaw :=
            if map.sales ≠ -1 ∧ rowGet row map.sales ≠ Value.undef
            then jsString (rowGet row map.sales) else "0"
          let salesNum :=
            if map.sales ≠ -1 ∧ rowGet row map.sales ≠ Value.undef
            then extractSalesNum (Value.str salesRaw) else 0
          let size :=
            if map.size ≠ -1 ∧ rowGet row map.size ≠ Value.undef
            then jsString (rowGet row map.size) else "-"
          (some {
            id := sku ++ "-" ++ platform ++ "-" ++ fileName ++ "-" ++ toString i ++ "-" ++ toString now,
            productCode := sku, size := size, price := p.val, discount := d.val,
            salesRaw := salesRaw, salesNum := salesNum, platform := platform,
            sourceFile := fileName, dataType := ty, updateDate := today },
           p.errs ++ d.errs)

/-- Fold of `extractRow` over index-tagged sheet rows, concatenating
records and validation messages in row order. -/
def extractRecordsIdx (map : ColMap) (ty : DataType) (platform fileName today : String) (now : ℕ) :
    List (ℕ × List Value) → List ShoeRecord × List String
  | [] => ([], [])
  | (i, row) :: rest =>
      let r := extractRow map ty platform fileName today now i row
      let rec' := extractRecordsIdx map ty platform fileName today now rest
      (r.1.toList ++ rec'.1, r.2 ++ rec'.2)

/-- `extractRecords`: process every sheet row after the header row. -/
def extractRecords (rawData : List (List Value)) (headerIndex : ℕ) (map : ColMap)
    (ty : DataType) (platform fileName today : String) (now : ℕ) :
    List ShoeRecord × List String :=
  extractRecordsIdx map ty platform fileName today now
    (List.enumFrom (headerIndex + 1) (rawData.drop (headerIndex + 1)))

-- --- Store commits (Dashboard.tsx handleFileUpload / handleConfirmMapping) ---

/-- Commit of the auto-accepted upload path: drop every stored record of
the selected channel+category, then append the new records
(`setData(prev => [...prev.filter(...), ...allNewRecords])`). -/
def commitUpload (prev newRecords : List ShoeRecord) (selectedPlatform : String)
    (selectedType : DataType) : List ShoeRecord :=
  prev.filter (fun p => !(decide (p.platform = selectedPlatform ∧ p.dataType = selectedType)))
    ++ newRecords

/-- Commit of the manual-mapping confirmation path: plain append
(`setData(prev => [...prev, ...records])`). -/
def commitManualMapping (prev records : List ShoeRecord) : List ShoeRecord :=
  prev ++ records

-- --- Arbitrage Matcher (ArbitrageAnalyzer processArbitrage) ---

/-- Column indices detected from the purchase sheet's header
(`skuIdx` / `tagPriceIdx` / `discountIdx` / `salesIdx`, `-1` = absent). -/
structure ArbCfg where
  skuIdx : Int
  tagPriceIdx : Int
  discountIdx : Int
  salesIdx : Int
deriving DecidableEq, Repr

/-- Insertion-order map update shared by `processArbitrage`'s `skuMap` and
`uniqueHistoryMap`: a JS `Map.set` appends an absent key at the end and,
for a present key, replaces the value in place only when the candidate is
`better` than the stored one. -/
def aupd {β : Type} (better : β → β → Bool) (key : String) (v : β) :
    List (String × β) → List (String × β)
  | [] => [(key, v)]
  | (k, w) :: rest =>
      if k = key then (if better v w then (k, v) :: rest else (k, w) :: rest)
      else (k, w) :: aupd better key v rest

/-- Effective discount for a purchase row: the row's own discount cell when
the sheet has a discount column and the cell is defined, else the default
10 (no discount). -/
def effectiveDiscountOf (cfg : ArbCfg) (row : List Value) : ℚ :=
  if cfg.discountIdx ≠ -1 ∧ rowGet row cfg.discountIdx ≠ Value.undef
  then parseDiscount (rowGet row cfg.discountIdx) else 10

/-- Dedup key of a sales-history record: update date, source file and
platform joined with `#`; a falsy (empty) source file is replaced by the
word Unknown, as in the template literal building this key. -/
def historyKey (m : ShoeRecord) : String :=
  m.updateDate ++ "#" ++ (if m.sourceFile = "" then "Unknown" else m.sourceFile) ++ "#" ++ m.platform

/-- Sales-history entry built from a stored record. -/
def histItem (m : ShoeRecord) : SalesHistoryItem :=
  ⟨m.updateDate, if m.sourceFile = "" then "Unknown" else m.sourceFile, m.salesNum, m.platform⟩

/-- Descending-date comparison used to sort the sales history. The source
compares `new Date(date).getTime()`; all stored dates are ISO
`YYYY-MM-DD` strings (`toISOString().split('T')[0]`), on which the
timestamp order coincides with lexicographic string order. -/
def dateGe (a b : SalesHistoryItem) : Prop := b.date ≤ a.date

instance : DecidableRel dateGe := fun a b => inferInstanceAs (Decidable (b.date ≤ a.date))

instance : IsTotal SalesHistoryItem dateGe := ⟨fun a b => le_total b.date a.date⟩

instance : IsTrans SalesHistoryItem dateGe := ⟨fun _ _ _ h₁ h₂ => le_trans h₂ h₁⟩

/-- Descending-profit comparison of the final `sort((a, b) => b.profit - a.profit)`. -/
def profitGe (a b : ArbitrageResult) : Prop := b.profit ≤ a.profit

instance : DecidableRel profitGe := fun a b => inferInstanceAs (Decidable (b.profit ≤ a.profit))

instance : IsTotal ArbitrageResult profitGe := ⟨fun a b => le_total b.profit a.profit⟩

instance : IsTrans ArbitrageResult profitGe := ⟨fun _ _ _ h₁ h₂ => le_trans h₂ h₁⟩

/-- Body of `processArbitrage`'s row loop: `none` when the SKU cell is
falsy or normalizes to the empty string (`continue`), otherwise the
complete financial computation and sales-history reconciliation for that
row against the accumulated store `masterData`. -/
def rowResult (cfg : ArbCfg) (masterData : List ShoeRecord) (fileName todayDate : String)
    (row : List Value) : Option ArbitrageResult :=
  if truthy (rowGet row cfg.skuIdx) = false then none
  else
    let sku := cleanProductCode (rowGet row cfg.skuIdx)
    if sku = "" then none
    else
      let tagPrice : ℚ := (parseFloatValue (rowGet row cfg.tagPriceIdx)).getD 0
      let marketMatches := masterData.filter
        (fun d => decide (d.productCode = sku ∧ d.dataType = DataType.MARKET))
      let marketPrice : ℚ := match marketMatches with
        | [] => 0
        | d :: _ => d.price
      let invCount : ℚ := ((masterData.filter
        (fun d => decide (d.productCode = sku ∧ d.dataType = DataType.INVENTORY))).map
          ShoeRecord.salesNum).sum
      let futureCount : ℚ := ((masterData.filter
        (fun d => decide (d.productCode = sku ∧ d.dataType = DataType.FUTURE))).map
          ShoeRecord.salesNum).sum
      let hasUploadSales : Prop := cfg.salesIdx ≠ -1 ∧ rowGet row cfg.salesIdx ≠ Value.undef ∧
        jsTrim (jsString (rowGet row cfg.salesIdx)) ≠ ""
      let effectiveDiscount := effectiveDiscountOf cfg row
      let costPrice := tagPrice * (effectiveDiscount / 10)
      let netRevenue : ℚ := if marketPrice > 0 then marketPrice * (88 / 100) else 0
      let profit : ℚ := if marketPrice > 0 then netRevenue - costPrice else -costPrice
      let roi : ℚ := if costPrice > 0 ∧ marketPrice > 0 then profit / costPrice else 0
      let histPair : ℚ × List SalesHistoryItem :=
        if hasUploadSales then
          let uploadSales := extractSalesNum (rowGet row cfg.salesIdx)
          (uploadSales, [⟨todayDate, fileName, uploadSales, "本次导入"⟩])
        else
          let historyMatches := masterData.filter (fun d => decide (d.productCode = sku ∧
            d.salesNum > 0 ∧ (d.dataType = DataType.SUPPLIER ∨ d.dataType = DataType.MARKET)))
          match historyMatches with
          | [] => (0, [])
          | _ :: _ =>
              let hist := (historyMatches.foldl
                (fun mp m => aupd (fun a b => decide (b.sales < a.sales)) (historyKey m) (histItem m) mp)
                []).map Prod.snd
              let sorted := List.insertionSort dateGe hist
              let ds : ℚ := match sorted with
                | [] => 0
                | h :: t => (t.map SalesHistoryItem.sales).foldl max h.sales
              (ds, sorted)
      some {
        productCode := sku, tagPrice := tagPrice, costPrice := costPrice,
        marketPrice := marketPrice, netRevenue := netRevenue, profit := profit, roi := roi,
        supplierName := if hasUploadSales then "本次导入" else "历史匹配",
        supplierDate := todayDate, supplierSourceFile := fileName,
        salesVolume := histPair.1, salesHistory := histPair.2,
        inventoryCount := invCount, futureCount := futureCount }

/-- The `skuMap` post-pass: group row results by SKU in insertion order,
keeping, for a repeated SKU, the stored result unless the new one has
strictly greater profit. -/
def buildSkuMap (results : List ArbitrageResult) : List (String × ArbitrageResult) :=
  results.foldl (fun mp r => aupd (fun a b => decide (b.profit < a.profit)) r.productCode r mp) []

/-- `processArbitrage` from the first data row on: per-row computation,
SKU dedup, and the final descending-profit sort. The source interleaves
the `skuMap` update with the row loop; as a row's result never reads the
map, that loop is the composition modelled here. -/
def processArbitrage (cfg : ArbCfg) (masterData : List ShoeRecord) (fileName todayDate : String)
    (dataRows : List (List Value)) : List ArbitrageResult :=
  List.insertionSort profitGe
    ((buildSkuMap (dataRows.filterMap (rowResult cfg masterData fileName todayDate))).map Prod.snd)

-- --- Specification-side views of column detection ---

/-- Index of the last header cell (scanning left to right) whose trimmed
text matches one of the role's keywords, `-1` when none does. This is the
value the overwrite-on-every-match loop of `autoDetectColumns` retains. -/
def lastMatchIdx (kws : List String) (header : List Value) : Int :=
  ((header.enum.reverse).find? (fun p => matchesAny (jsTrim (jsString p.2)) kws)).elim
    (-1) (fun p => (p.1 : Int))

/-- Index of the first header cell whose trimmed text matches one of the
role's keywords, `-1` when none does — the recording rule the claim
asserts. -/
def firstMatchIdx (kws : List String) (header : List Value) : Int :=
  (header.enum.find? (fun p => matchesAny (jsTrim (jsString p.2)) kws)).elim
    (-1) (fun p => (p.1 : Int))

/-- Membership test for one channel+category combination. -/
def comboB (platform : String) (ty : DataType) (r : ShoeRecord) : Bool :=
  decide (r.platform = platform ∧ r.dataType = ty)

/-- First value stored under a key in an insertion-ordered association
list (the lookup view of a JS `Map`). -/
def lookupA {β : Type} (k : String) : List (String × β) → Option β
  | [] => none
  | (k', v) :: rest => if k' = k then some v else lookupA k rest

-- --- Concrete fixtures used in witness scenarios ---

/-- A stored market-price record for SKU "A" (price 1000). -/
def storedMarketA : ShoeRecord :=
  { id := "m1", productCode := "A", size := "-", price := 1000, discount := 10,
    salesRaw := "0", salesNum := 0, platform := "得物", sourceFile := "mkt.xlsx",
    dataType := DataType.MARKET, updateDate := "2026-01-01" }

/-- A previously stored record on channel "P", category market-price. -/
def storedOldP : ShoeRecord :=
  { id := "old", productCode := "A", size := "-", price := 900, discount := 10,
    salesRaw := "0", salesNum := 0, platform := "P", sourceFile := "old.xlsx",
    dataType := DataType.MARKET, updateDate := "2026-01-01" }

/-- A freshly extracted record on the same channel "P" and category
market-price as `storedOldP`. -/
def freshNewP : ShoeRecord :=
  { id := "new", productCode := "B", size := "-", price := 800, discount := 10,
    salesRaw := "0", salesNum := 0, platform := "P", sourceFile := "new.xlsx",
    dataType := DataType.MARKET, updateDate := "2026-01-02" }

/-- Purchase-sheet column layout with SKU in column 0 and tag price in
column 1, no discount or sales columns. -/
def buyCfg : ArbCfg := ⟨0, 1, -1, -1⟩

/-- Ingestion column layout with SKU in column 0 and price in column 1. -/
def ingestMap : ColMap := ⟨0, -1, 1, -1, -1⟩

/-- Arbitrage result of the purchase row `["A", "780"]` against an empty
store (unmatched SKU). -/
def unmatchedA : ArbitrageResult :=
  { productCode := "A", tagPrice := 780, costPrice := 780, marketPrice := 0,
    netRevenue := 0, profit := -780, roi := 0, supplierName := "历史匹配",
    supplierDate := "2026-01-02", supplierSourceFile := "buy.xlsx", salesVolume := 0,
    salesHistory := [], inventoryCount := 0, futureCount := 0 }

/-- Arbitrage result of the purchase row `["A", "780"]` against a store
holding `storedMarketA` (profit 100). -/
def buy780A : ArbitrageResult :=
  { productCode := "A", tagPrice := 780, costPrice := 780, marketPrice := 1000,
    netRevenue := 880, profit := 100, roi := 5 / 39, supplierName := "历史匹配",
    supplierDate := "2026-01-02", supplierSourceFile := "buy.xlsx", salesVolume := 0,
    salesHistory := [], inventoryCount := 0, futureCount := 0 }

/-- Arbitrage result of the purchase row `["A", "730"]` against a store
holding `storedMarketA` (profit 150). -/
def buy730A : ArbitrageResult :=
  { productCode := "A", tagPrice := 730, costPrice := 730, marketPrice := 1000,
    netRevenue := 880, profit := 150, roi := 15 / 73, supplierName := "历史匹配",
    supplierDate := "2026-01-02", supplierSourceFile := "buy.xlsx", salesVolume := 0,
    salesHistory := [], inventoryCount := 0, futureCount := 0 }

-- --- Shared helper lemmas ---

/-- Evaluation rule for `jsParseFloat` from the discrete parse. -/
theorem jsParseFloat_of_parts {s : String} {m e : ℤ} (h : jsParseFloatParts s = some (m, e)) :
    jsParseFloat s = some ((m : ℚ) * 10 ^ e) := by
  simp [jsParseFloat, h, ratOfParts]

/-- On string input, `extractSalesNum` is the value of the first digit run
(0 when there is none). -/
theorem extractSalesNum_str_eq (s : String) :
    extractSalesNum (Value.str s) =
      (firstDigitRun s).elim 0 (fun ds => (digitsToNat ds : ℚ)) := by
  by_cases hs : s = ""
  · subst hs; rfl
  · simp only [extractSalesNum, truthy, hs, decide_not]
    cases h : firstDigitRun s <;> simp [h, hs]

/-- On string input, `extractSalesNum` returns a natural number. -/
theorem extractSalesNum_str_nat (s : String) :
    ∃ n : ℕ, extractSalesNum (Value.str s) = (n : ℚ) := by
  rw [extractSalesNum_str_eq]
  cases h : firstDigitRun s with
  | none => exact ⟨0, by simp⟩
  | some ds => exact ⟨digitsToNat ds, by simp⟩

/-- The price retained by the price-validation step is never negative:
negative and non-numeric parses fall back to 0. -/
theorem priceStep_val_nonneg (ty : DataType) (map : ColMap) (i : ℕ) (sku : String)
    (row : List Value) : 0 ≤ (priceStep ty map i sku row).val := by
  unfold priceStep
  by_cases h1 : map.price ≠ -1
  · rw [if_pos h1]
    by_cases h2 : rowGet row map.price ≠ Value.undef ∧ jsTrim (jsString (rowGet row map.price)) ≠ ""
    · rw [if_pos h2]
      cases hp : parseFloatValue (rowGet row map.price) with
      | none => norm_num
      | some pNum =>
          by_cases hneg : pNum < 0
          · simp only [hneg, if_true]; norm_num
          · simp only [hneg, if_false]
            exact le_of_not_lt hneg
    · rw [if_neg h2]
      by_cases h3 : ty = DataType.MARKET
      · rw [if_pos h3]
      · rw [if_neg h3]
  · rw [if_neg h1]

-- --- C9 ---

/-- C9: `parseDiscount` returns the default 10 for the numeric input 0 and
for every other falsy input (empty string, null, undefined, NaN): the
absence check is a JS falsiness test, so a discount cell holding the
number 0 means "no discount applied", not a 100% discount. -/
theorem C9_parseDiscount_falsy_default :
    (∀ v : Value, truthy v = false → parseDiscount v = 10) ∧
    parseDiscount (Value.num 0) = 10 ∧ parseDiscount (Value.str "") = 10 ∧
    parseDiscount Value.null = 10 ∧ parseDiscount Value.undef = 10 ∧
    parseDiscount Value.nan = 10 := by
  refine ⟨fun v hv => by simp [parseDiscount, hv], ?_, rfl, rfl, rfl, rfl⟩
  simp [parseDiscount, truthy]

/-- C9 witness: the falsy-input rule applied at the numeric input 0. -/
theorem C9_witness : truthy (Value.num 0) = false ∧ parseDiscount (Value.num 0) = 10 :=
  ⟨by simp [truthy], C9_parseDiscount_falsy_default.1 (Value.num 0) (by simp [truthy])⟩

-- --- C4 ---

/-- C4 counterexample: `extractSalesNum` passes a numeric input through
unchanged, so the numeric input -5 yields -5, which is not a non-negative
integer; the claim's universal "returns a non-negative integer" is false. -/
theorem C4_counterexample :
    extractSalesNum (Value.num (-5)) = -5 ∧ ¬(0 ≤ (-5 : ℚ)) :=
  ⟨rfl, by norm_num⟩

/-- C4 (amended): `extractSalesNum` returns a numeric input as-is — even a
negative or fractional one, so the result is a non-negative integer only
for non-numeric input; every non-numeric (and non-NaN) input yields a
natural number, a string input yields the value of its first run of
decimal digits (0 when there is none or the input is absent), and the four
concrete examples hold: "3000+件" ↦ 3000, 150 ↦ 150, "" ↦ 0, "无" ↦ 0. -/
theorem C4_extractSalesNum_amended :
    (∀ q : ℚ, extractSalesNum (Value.num q) = q) ∧
    (∀ v : Value, (∀ q : ℚ, v ≠ Value.num q) → v ≠ Value.nan →
      ∃ n : ℕ, extractSalesNum v = (n : ℚ)) ∧
    (∀ s : String, extractSalesNum (Value.str s) =
      (firstDigitRun s).elim 0 (fun ds => (digitsToNat ds : ℚ))) ∧
    extractSalesNum (Value.str "3000+件") = 3000 ∧
    extractSalesNum (Value.num 150) = 150 ∧
    extractSalesNum (Value.str "") = 0 ∧
    extractSalesNum (Value.str "无") = 0 := by
  refine ⟨fun q => rfl, ?_, extractSalesNum_str_eq, ?_, rfl, rfl, rfl⟩
  · intro v hnum hnan
    cases v with
    | num q => exact absurd rfl (hnum q)
    | nan => exact absurd rfl hnan
    | str s => exact extractSalesNum_str_nat s
    | null => exact ⟨0, rfl⟩
    | undef => exact ⟨0, rfl⟩
  · have h : firstDigitRun "3000+件" = some ['3', '0', '0', '0'] := by decide
    have h2 : digitsToNat ['3', '0', '0', '0'] = 3000 := by decide
    rw [extractSalesNum_str_eq, h]
    simp [h2]

/-- C4 witness: the natural-number guarantee applied at the non-numeric
input "无". -/
theorem C4_witness :
    (∀ q : ℚ, Value.str "无" ≠ Value.num q) ∧
    (∃ n : ℕ, extractSalesNum (Value.str "无") = (n : ℚ)) :=
  ⟨fun _ h => Value.noConfusion h,
   C4_extractSalesNum_amended.2.1 (Value.str "无") (fun _ h => Value.noConfusion h)
     (fun h => Value.noConfusion h)⟩

-- --- C10 ---

/-- C10: `parseDiscount` performs no range check on the 0–10 scale: "15"
yields 15 and "-3" yields -3; in general any truthy input whose string form
parses to a number is returned unchanged, and the matcher's cost price
(tag price × discount / 10) can therefore exceed the tag price (100 → 150
at discount 15) or be negative (100 → -30 at discount -3). -/
theorem C10_parseDiscount_no_range_check :
    parseDiscount (Value.str "15") = 15 ∧
    parseDiscount (Value.str "-3") = -3 ∧
    (∀ (s : String) (q : ℚ), truthy (Value.str s) = true → jsParseFloat s = some q →
      parseDiscount (Value.str s) = q) ∧
    (∃ r, rowResult ⟨0, 1, 2, -1⟩ [] "buy.xlsx" "2026-01-02"
        [Value.str "A", Value.str "100", Value.str "15"] = some r ∧
        r.tagPrice = 100 ∧ r.costPrice = 150 ∧ r.tagPrice < r.costPrice) ∧
    (∃ r, rowResult ⟨0, 1, 2, -1⟩ [] "buy.xlsx" "2026-01-02"
        [Value.str "A", Value.str "100", Value.str "-3"] = some r ∧
        r.costPrice = -30 ∧ r.costPrice < 0) := by
  have h15 : jsParseFloat "15" = some 15 := by
    rw [jsParseFloat_of_parts (by decide : jsParseFloatParts "15" = some (15, 0))]; norm_num
  have hm3 : jsParseFloat "-3" = some (-3) := by
    rw [jsParseFloat_of_parts (by decide : jsParseFloatParts "-3" = some (-3, 0))]; norm_num
  have h100 : jsParseFloat "100" = some 100 := by
    rw [jsParseFloat_of_parts (by decide : jsParseFloatParts "100" = some (100, 0))]; norm_num
  have hgen : ∀ (s : String) (q : ℚ), truthy (Value.str s) = true → jsParseFloat s = some q →
      parseDiscount (Value.str s) = q := by
    intro s q ht hq
    simp [parseDiscount, ht, parseFloatValue, hq]
  refine ⟨hgen "15" 15 (by decide) h15, hgen "-3" (-3) (by decide) hm3, hgen, ?_, ?_⟩
  · refine ⟨{ productCode := "A", tagPrice := 100, costPrice := 150, marketPrice := 0,
              netRevenue := 0, profit := -150, roi := 0, supplierName := "历史匹配",
              supplierDate := "2026-01-02", supplierSourceFile := "buy.xlsx", salesVolume := 0,
              salesHistory := [], inventoryCount := 0, futureCount := 0 }, ?_, rfl, rfl, by norm_num⟩
    simp [rowResult, rowGet, truthy, cleanProductCode, jsString, jsTrim, jsToUpper,
      parseFloatValue, h100, h15, effectiveDiscountOf, parseDiscount, List.filter]
    norm_num
  · refine ⟨{ productCode := "A", tagPrice := 100, costPrice := -30, marketPrice := 0,
              netRevenue := 0, profit := 30, roi := 0, supplierName := "历史匹配",
              supplierDate := "2026-01-02", supplierSourceFile := "buy.xlsx", salesVolume := 0,
              salesHistory := [], inventoryCount := 0, futureCount := 0 }, ?_, rfl, by norm_num⟩
    simp [rowResult, rowGet, truthy, cleanProductCode, jsString, jsTrim, jsToUpper,
      parseFloatValue, h100, hm3, effectiveDiscountOf, parseDiscount, List.filter]
    norm_num

/-- C10 witness: the pass-through rule applied at the out-of-range input
"15". -/
theorem C10_witness :
    truthy (Value.str "15") = true ∧ jsParseFloat "15" = some 15 ∧
    parseDiscount (Value.str "15") = 15 := by
  have h15 : jsParseFloat "15" = some 15 := by
    rw [jsParseFloat_of_parts (by decide : jsParseFloatParts "15" = some (15, 0))]; norm_num
  exact ⟨by decide, h15, C10_parseDiscount_no_range_check.2.2.1 "15" 15 (by decide) h15⟩

-- --- C5 ---

/-- C5: the ingestion orchestrator auto-accepts a column mapping iff the
SKU index is present AND (category ≠ market-price OR the price index is
present) AND (category is neither owned-inventory nor in-transit-futures
OR the sales index is present) — except that a remembered mapping for the
sheet's exact header signature is always accepted, bypassing the
completeness check. -/
theorem C5_completeness_policy (usedSavedMap : Bool) (colMap : ColMap) (ty : DataType) :
    isComplete usedSavedMap colMap ty = true ↔
      (usedSavedMap = true ∨
        (colMap.sku ≠ -1 ∧
          (ty ≠ DataType.MARKET ∨ colMap.price ≠ -1) ∧
          (¬(ty = DataType.INVENTORY ∨ ty = DataType.FUTURE) ∨ colMap.sales ≠ -1))) := by
  unfold isComplete
  cases usedSavedMap with
  | true => simp
  | false =>
      simp only [Bool.false_eq_true, if_false, false_or]
      by_cases h1 : colMap.sku = -1 <;>
        by_cases h2 : ty = DataType.MARKET ∧ colMap.price = -1 <;>
          by_cases h3 : (ty = DataType.INVENTORY ∨ ty = DataType.FUTURE) ∧ colMap.sales = -1 <;>
            simp_all <;> tauto

-- --- C3 helper lemmas ---

/-- A keep-last fold over index-tagged cells computes the last element
satisfying the predicate (found via the reversed list), defaulting to the
accumulator. -/
theorem foldl_keepLast {α : Type} (pred : ℕ × α → Bool) :
    ∀ (l : List (ℕ × α)) (a : Int),
      l.foldl (fun acc q => if pred q then (q.1 : Int) else acc) a =
        ((l.reverse).find? pred).elim a (fun q => (q.1 : Int)) := by
  intro l
  induction l with
  | nil => intro a; rfl
  | cons x xs ih =>
      intro a
      simp only [List.foldl_cons, List.reverse_cons, List.find?_append, ih]
      cases h : xs.reverse.find? pred with
      | some q => simp [h, Option.or]
      | none =>
          by_cases hx : pred x = true <;> simp [h, hx, List.find?, Option.or]

/-- Projection of one `autoDetectStep` onto the sku field. -/
theorem autoDetectStep_sku (m : ColMap) (i : ℕ) (c : Value) :
    (autoDetectStep m i c).sku =
      if matchesAny (jsTrim (jsString c)) skuKeys then (i : Int) else m.sku := by
  dsimp only [autoDetectStep]
  split_ifs <;> rfl

/-- Projection of one `autoDetectStep` onto the size field. -/
theorem autoDetectStep_size (m : ColMap) (i : ℕ) (c : Value) :
    (autoDetectStep m i c).size =
      if matchesAny (jsTrim (jsString c)) sizeKeys then (i : Int) else m.size := by
  dsimp only [autoDetectStep]
  split_ifs <;> rfl

/-- Projection of one `autoDetectStep` onto the price field. -/
theorem autoDetectStep_price (m : ColMap) (i : ℕ) (c : Value) :
    (autoDetectStep m i c).price =
      if matchesAny (jsTrim (jsString c)) priceKeys then (i : Int) else m.price := by
  dsimp only [autoDetectStep]
  split_ifs <;> rfl

/-- Projection of one `autoDetectStep` onto the discount field. -/
theorem autoDetectStep_discount (m : ColMap) (i : ℕ) (c : Value) :
    (autoDetectStep m i c).discount =
      if matchesAny (jsTrim (jsString c)) discountKeys then (i : Int) else m.discount := by
  dsimp only [autoDetectStep]
  split_ifs <;> rfl

/-- Projection of one `autoDetectStep` onto the sales field. -/
theorem autoDetectStep_sales (m : ColMap) (i : ℕ) (c : Value) :
    (autoDetectStep m i c).sales =
      if matchesAny (jsTrim (jsString c)) salesKeys then (i : Int) else m.sales := by
  dsimp only [autoDetectStep]
  split_ifs <;> rfl

/-- The detection fold, projected onto one role, is the keep-last fold for
that role's keywords. -/
theorem foldl_detect_field {f : ColMap → Int} {kws : List String}
    (hstep : ∀ m i c, f (autoDetectStep m i c) =
      if matchesAny (jsTrim (jsString c)) kws then (i : Int) else f m) :
    ∀ (l : List (ℕ × Value)) (m : ColMap),
      f (l.foldl (fun m p => autoDetectStep m p.1 p.2) m) =
        l.foldl (fun acc p => if matchesAny (jsTrim (jsString p.2)) kws then (p.1 : Int) else acc)
          (f m) := by
  intro l
  induction l with
  | nil => intro m; rfl
  | cons x xs ih => intro m; simp only [List.foldl_cons, ih, hstep]

-- --- C3 ---

/-- C3 counterexample: on the header `["SKU", "货号"]` both cells match the
sku keyword list, the first matching column index is 0, yet
`autoDetectColumns` records index 1 — the mapper records the last matching
column, not the first. -/
theorem C3_counterexample :
    (autoDetectColumns [Value.str "SKU", Value.str "货号"]).sku = 1 ∧
    firstMatchIdx skuKeys [Value.str "SKU", Value.str "货号"] = 0 ∧
    (1 : Int) ≠ 0 := by decide

/-- C3 (amended): for every header row, the Column Mapper tests each
role's keyword synonyms against each header cell by case-sensitive
substring match on the trimmed cell text, and records the LAST matching
column index per role (each match overwrites the previous one); a role
with no matching cell gets the sentinel -1. -/
theorem C3_column_mapper_last_match (header : List Value) :
    (autoDetectColumns header).sku = lastMatchIdx skuKeys header ∧
    (autoDetectColumns header).size = lastMatchIdx sizeKeys header ∧
    (autoDetectColumns header).price = lastMatchIdx priceKeys header ∧
    (autoDetectColumns header).discount = lastMatchIdx discountKeys header ∧
    (autoDetectColumns header).sales = lastMatchIdx salesKeys header := by
  refine ⟨?_, ?_, ?_, ?_, ?_⟩
  · rw [autoDetectColumns, foldl_detect_field autoDetectStep_sku]
    unfold lastMatchIdx
    show List.foldl _ (-1) header.enum = _
    exact foldl_keepLast (fun p => matchesAny (jsTrim (jsString p.2)) skuKeys) header.enum (-1)
  · rw [autoDetectColumns, foldl_detect_field autoDetectStep_size]
    unfold lastMatchIdx
    show List.foldl _ (-1) header.enum = _
    exact foldl_keepLast (fun p => matchesAny (jsTrim (jsString p.2)) sizeKeys) header.enum (-1)
  · rw [autoDetectColumns, foldl_detect_field autoDetectStep_price]
    unfold lastMatchIdx
    show List.foldl _ (-1) header.enum = _
    exact foldl_keepLast (fun p => matchesAny (jsTrim (jsString p.2)) priceKeys) header.enum (-1)
  · rw [autoDetectColumns, foldl_detect_field autoDetectStep_discount]
    unfold lastMatchIdx
    show List.foldl _ (-1) header.enum = _
    exact foldl_keepLast (fun p => matchesAny (jsTrim (jsString p.2)) discountKeys) header.enum (-1)
  · rw [autoDetectColumns, foldl_detect_field autoDetectStep_sales]
    unfold lastMatchIdx
    show List.foldl _ (-1) header.enum = _
    exact foldl_keepLast (fun p => matchesAny (jsTrim (jsString p.2)) salesKeys) header.enum (-1)

-- --- C7 ---

/-- C7 counterexample: the manual-mapping confirmation path also commits
extracted records for the selected channel+category, but it appends
without removing: with one stored record on channel "P" / market-price and
one new record for the same combination, the old record is still present
after the commit, so "every previously stored record with that same
channel+category combination is removed" is false. -/
theorem C7_counterexample :
    commitManualMapping [storedOldP] [freshNewP] = [storedOldP, freshNewP] ∧
    storedOldP.platform = freshNewP.platform ∧
    storedOldP.dataType = freshNewP.dataType ∧
    storedOldP ∈ commitManualMapping [storedOldP] [freshNewP] := by
  refine ⟨rfl, rfl, rfl, ?_⟩
  show storedOldP ∈ [storedOldP, freshNewP]
  exact List.mem_cons_self _ _

/-- C7 (amended): only the auto-accepted upload path replaces in bulk —
when every new record carries the selected channel+category, the committed
store holds exactly the new records for that combination and exactly the
previously stored records for every other combination; the manual-mapping
confirmation path appends the extracted records and removes nothing from
any combination. -/
theorem C7_commit_frame_amended :
    (∀ (prev newRecords : List ShoeRecord) (pf : String) (ty : DataType),
      (∀ r ∈ newRecords, r.platform = pf ∧ r.dataType = ty) →
        (commitUpload prev newRecords pf ty).filter (comboB pf ty) = newRecords ∧
        (∀ (pf' : String) (ty' : DataType), ¬(pf' = pf ∧ ty' = ty) →
          (commitUpload prev newRecords pf ty).filter (comboB pf' ty') =
            prev.filter (comboB pf' ty'))) ∧
    (∀ (prev records : List ShoeRecord) (pf' : String) (ty' : DataType),
      (commitManualMapping prev records).filter (comboB pf' ty') =
        prev.filter (comboB pf' ty') ++ records.filter (comboB pf' ty')) := by
  constructor
  · intro prev newRecords pf ty hnew
    constructor
    · rw [commitUpload, List.filter_append, List.filter_filter]
      have h1 : ∀ r : ShoeRecord,
          (comboB pf ty r && !decide (r.platform = pf ∧ r.dataType = ty)) = false := by
        intro r; by_cases h : r.platform = pf ∧ r.dataType = ty <;> simp [comboB, h]
      have h2 : newRecords.filter (comboB pf ty) = newRecords := by
        apply List.filter_eq_self.2
        intro r hr
        have := hnew r hr
        simp [comboB, this.1, this.2]
      simp only [h1]
      simp [h2]
    · intro pf' ty' hne
      rw [commitUpload, List.filter_append, List.filter_filter]
      have h3 : newRecords.filter (comboB pf' ty') = [] := by
        apply List.filter_eq_nil.2
        intro r hr
        have hrc := hnew r hr
        simp only [comboB, decide_eq_true_eq]
        intro hcon
        exact hne ⟨hcon.1 ▸ hrc.1 ▸ rfl, hcon.2 ▸ hrc.2 ▸ rfl⟩
      have h4 : ∀ r : ShoeRecord,
          (comboB pf' ty' r && !decide (r.platform = pf ∧ r.dataType = ty)) = comboB pf' ty' r := by
        intro r
        by_cases hc : r.platform = pf' ∧ r.dataType = ty'
        · have hnc : ¬(r.platform = pf ∧ r.dataType = ty) := by
            intro hcon
            exact hne ⟨hc.1 ▸ hcon.1 ▸ rfl, hc.2 ▸ hcon.2 ▸ rfl⟩
          simp [comboB, hc, hnc]
          exact not_and_or.mp hne
        · simp [comboB, hc]
      simp only [h3, h4, List.append_nil]
  · intro prev records pf' ty'
    rw [commitManualMapping, List.filter_append]

/-- C7 witness: the amended frame property applied to the concrete commit
of one new record for channel "P" / market-price over a store holding one
record of that combination and nothing else. -/
theorem C7_witness :
    (∀ r ∈ [freshNewP], r.platform = "P" ∧ r.dataType = DataType.MARKET) ∧
    (commitUpload [storedOldP] [freshNewP] "P" DataType.MARKET).filter
      (comboB "P" DataType.MARKET) = [freshNewP] := by
  have hnew : ∀ r ∈ [freshNewP], r.platform = "P" ∧ r.dataType = DataType.MARKET := by
    intro r hr
    rw [List.mem_singleton] at hr
    subst hr
    exact ⟨rfl, rfl⟩
  exact ⟨hnew, (C7_commit_frame_amended.1 [storedOldP] [freshNewP] "P" DataType.MARKET hnew).1⟩

-- --- C6 helper lemmas ---

/-- Reading any cell of an empty row gives `undefined`. -/
theorem rowGet_nil (i : Int) : rowGet [] i = Value.undef := by
  unfold rowGet
  split_ifs <;> simp

/-- Reading a cell at the `-1` sentinel gives `undefined`. -/
theorem rowGet_neg_one (row : List Value) : rowGet row (-1) = Value.undef := by
  unfold rowGet
  rw [if_pos]
  norm_num

/-- Extraction distributes over row-batch concatenation: the records and
the validation messages of a batch are those of its parts, in order — one
rejected row never stops the rest of the batch. -/
theorem extractRecordsIdx_append (map : ColMap) (ty : DataType)
    (platform fileName today : String) (now : ℕ) (l₁ l₂ : List (ℕ × List Value)) :
    (extractRecordsIdx map ty platform fileName today now (l₁ ++ l₂)).1 =
      (extractRecordsIdx map ty platform fileName today now l₁).1 ++
        (extractRecordsIdx map ty platform fileName today now l₂).1 ∧
    (extractRecordsIdx map ty platform fileName today now (l₁ ++ l₂)).2 =
      (extractRecordsIdx map ty platform fileName today now l₁).2 ++
        (extractRecordsIdx map ty platform fileName today now l₂).2 := by
  induction l₁ with
  | nil => simp [extractRecordsIdx]
  | cons x xs ih =>
      obtain ⟨i, row⟩ := x
      simp [extractRecordsIdx, ih.1, ih.2, List.append_assoc]

-- --- C6 ---

/-- C6: a market-price row whose price cell parses to a negative number
produces no record and exactly one validation problem; the problem message
contains the row number, the SKU, the offending raw value, and mentions
the price being negative (负数); and extraction of a batch is the
concatenation of its rows' outcomes, so the rest of the batch continues. -/
theorem C6_negative_market_price
    (map : ColMap) (platform fileName today : String) (now i : ℕ) (row : List Value) (p : ℚ)
    (hsku : cleanProductCode (rowGet row map.sku) ≠ "")
    (hpricecol : map.price ≠ -1)
    (hblank : jsTrim (jsString (rowGet row map.price)) ≠ "")
    (hparse : parseFloatValue (rowGet row map.price) = some p)
    (hneg : p < 0) :
    extractRow map DataType.MARKET platform fileName today now i row =
      (none, [negPriceMsg (i + 1) (cleanProductCode (rowGet row map.sku))
        (jsString (rowGet row map.price))]) ∧
    (∀ n sku raw, ∃ a b, negPriceMsg n sku raw = a ++ toString n ++ b) ∧
    (∀ n sku raw, ∃ a b, negPriceMsg n sku raw = a ++ sku ++ b) ∧
    (∀ n sku raw, ∃ a b, negPriceMsg n sku raw = a ++ raw ++ b) ∧
    (∀ n sku raw, ∃ a b, negPriceMsg n sku raw = a ++ "负数" ++ b) ∧
    (∀ l₁ l₂,
      (extractRecordsIdx map DataType.MARKET platform fileName today now (l₁ ++ l₂)).1 =
        (extractRecordsIdx map DataType.MARKET platform fileName today now l₁).1 ++
          (extractRecordsIdx map DataType.MARKET platform fileName today now l₂).1 ∧
      (extractRecordsIdx map DataType.MARKET platform fileName today now (l₁ ++ l₂)).2 =
        (extractRecordsIdx map DataType.MARKET platform fileName today now l₁).2 ++
          (extractRecordsIdx map DataType.MARKET platform fileName today now l₂).2) := by
  have hcell : rowGet row map.price ≠ Value.undef := by
    intro h
    rw [h] at hparse
    exact Option.noConfusion hparse
  have hrow : ¬row.isEmpty := by
    intro h
    rw [List.isEmpty_iff] at h
    subst h
    exact hcell (rowGet_nil _)
  have hskucol : ¬(map.sku = -1 ∨ rowGet row map.sku = Value.undef) := by
    rintro (h | h)
    · exact hsku (by rw [h, rowGet_neg_one]; rfl)
    · exact hsku (by rw [h]; rfl)
  refine ⟨?_, ?_, ?_, ?_, ?_,
    fun l₁ l₂ => extractRecordsIdx_append map DataType.MARKET platform fileName today now l₁ l₂⟩
  · unfold extractRow
    rw [if_neg (by simpa using hrow), if_neg hskucol, if_neg hsku]
    have hps : priceStep DataType.MARKET map i (cleanProductCode (rowGet row map.sku)) row =
        ⟨0, [negPriceMsg (i + 1) (cleanProductCode (rowGet row map.sku))
          (jsString (rowGet row map.price))], true⟩ := by
      unfold priceStep
      rw [if_pos hpricecol, if_pos ⟨hcell, hblank⟩, hparse]
      simp [hneg]
    rw [hps]
    rfl
  · intro n sku raw
    exact ⟨"行 ", " [SKU: " ++ sku ++ "]: 价格不能为负数 (值: \"" ++ raw ++ "\")。",
      by simp [negPriceMsg, String.append_assoc]⟩
  · intro n sku raw
    exact ⟨"行 " ++ toString n ++ " [SKU: ", "]: 价格不能为负数 (值: \"" ++ raw ++ "\")。",
      by simp [negPriceMsg, String.append_assoc]⟩
  · intro n sku raw
    exact ⟨"行 " ++ toString n ++ " [SKU: " ++ sku ++ "]: 价格不能为负数 (值: \"", "\")。",
      by simp [negPriceMsg, String.append_assoc]⟩
  · intro n sku raw
    have hAB : ("]: 价格不能为负数" ++ " (值: \"" : String) = "]: 价格不能为负数 (值: \"" := by decide
    have key : ∀ Z : String, ("]: 价格不能为负数" ++ (" (值: \"" ++ Z) : String) =
        "]: 价格不能为负数 (值: \"" ++ Z := by
      intro Z
      rw [← String.append_assoc, hAB]
    exact ⟨"行 " ++ toString n ++ " [SKU: " ++ sku ++ "]: 价格不能为", " (值: \"" ++ raw ++ "\")。",
      by simp [negPriceMsg, String.append_assoc, key]⟩

/-- C6 witness: the negative-price rule applied to the concrete
market-price row `["A", "-5"]` at sheet index 1: no record, and exactly
the one problem message naming row 2, SKU "A" and raw value "-5". -/
theorem C6_witness :
    cleanProductCode (rowGet [Value.str "A", Value.str "-5"] ingestMap.sku) ≠ "" ∧
    parseFloatValue (rowGet [Value.str "A", Value.str "-5"] ingestMap.price) = some (-5) ∧
    ((-5 : ℚ) < 0) ∧
    extractRow ingestMap DataType.MARKET "P" "f.xlsx" "2026-01-02" 7 1
      [Value.str "A", Value.str "-5"] = (none, [negPriceMsg 2 "A" "-5"]) := by
  have hparse : parseFloatValue (rowGet [Value.str "A", Value.str "-5"] ingestMap.price) =
      some (-5) := by
    show jsParseFloat "-5" = some (-5)
    rw [jsParseFloat_of_parts (by decide : jsParseFloatParts "-5" = some (-5, 0))]
    norm_num
  have hmain := C6_negative_market_price ingestMap "P" "f.xlsx" "2026-01-02" 7 1
    [Value.str "A", Value.str "-5"] (-5) (by decide) (by decide) (by decide) hparse (by norm_num)
  refine ⟨by decide, hparse, by norm_num, ?_⟩
  have hsku : cleanProductCode (rowGet [Value.str "A", Value.str "-5"] ingestMap.sku) = "A" := by
    decide
  have hraw : jsString (rowGet [Value.str "A", Value.str "-5"] ingestMap.price) = "-5" := by decide
  rw [hmain.1, hsku, hraw]

-- --- C8 helper lemmas ---

/-- Shape of every record emitted by the row loop of `extractRecords`: the
product code is the cleaned SKU cell and is non-empty, the price is the
(never negative) price-step value, and the sales count is a natural
number because the sales cell is stringified before `extractSalesNum`. -/
theorem extractRow_some_inv (map : ColMap) (ty : DataType) (platform fileName today : String)
    (now i : ℕ) (row : List Value) (rec : ShoeRecord) (errs : List String)
    (h : extractRow map ty platform fileName today now i row = (some rec, errs)) :
    rec.productCode = cleanProductCode (rowGet row map.sku) ∧
    rec.productCode ≠ "" ∧ 0 ≤ rec.price ∧ (∃ n : ℕ, rec.salesNum = (n : ℚ)) := by
  by_cases hempty : row.isEmpty
  · rw [extractRow, if_pos hempty] at h
    exact absurd h (by simp)
  rw [extractRow, if_neg hempty] at h
  by_cases hskuc : map.sku = -1 ∨ rowGet row map.sku = Value.undef
  · rw [if_pos hskuc] at h
    exact absurd h (by simp)
  rw [if_neg hskuc] at h
  by_cases hsku : cleanProductCode (rowGet row map.sku) = ""
  · rw [if_pos hsku] at h
    exact absurd h (by simp)
  rw [if_neg hsku] at h
  dsimp only at h
  by_cases hpskip : (priceStep ty map i (cleanProductCode (rowGet row map.sku)) row).skip = true
  · rw [if_pos hpskip] at h
    exact absurd h (by simp)
  rw [if_neg hpskip] at h
  by_cases hdskip : (discountStep ty map i (cleanProductCode (rowGet row map.sku)) row).skip = true
  · rw [if_pos hdskip] at h
    exact absurd h (by simp)
  rw [if_neg hdskip] at h
  rw [Prod.mk.injEq] at h
  obtain ⟨hrec, -⟩ := h
  obtain rfl := Option.some.inj hrec
  refine ⟨rfl, hsku, priceStep_val_nonneg ty map i _ row, ?_⟩
  by_cases hsales : map.sales ≠ -1 ∧ rowGet row map.sales ≠ Value.undef
  · simp only [if_pos hsales]
    exact extractSalesNum_str_nat _
  · simp only [if_neg hsales]
    exact ⟨0, by norm_num⟩

/-- Every record of an extracted batch comes from some row of the batch
via `extractRow`. -/
theorem extractRecordsIdx_mem (map : ColMap) (ty : DataType) (platform fileName today : String)
    (now : ℕ) :
    ∀ (l : List (ℕ × List Value)) (rec : ShoeRecord),
      rec ∈ (extractRecordsIdx map ty platform fileName today now l).1 →
      ∃ ir ∈ l, ∃ errs,
        extractRow map ty platform fileName today now ir.1 ir.2 = (some rec, errs) := by
  intro l
  induction l with
  | nil => intro rec h; exact absurd h (by simp [extractRecordsIdx])
  | cons x xs ih =>
      intro rec h
      obtain ⟨i, row⟩ := x
      rw [extractRecordsIdx] at h
      rcases List.mem_append.mp h with h1 | h2
      · refine ⟨(i, row), List.mem_cons_self _ _, (extractRow map ty platform fileName today now i row).2, ?_⟩
        have hthis : (extractRow map ty platform fileName today now i row).1 = some rec := by
          cases ho : (extractRow map ty platform fileName today now i row).1 with
          | none => rw [ho] at h1; exact absurd h1 (by simp)
          | some r =>
              rw [ho] at h1
              simp at h1
              subst h1
              rfl
        exact Prod.ext hthis rfl
      · obtain ⟨ir, hir, errs, he⟩ := ih rec h2
        exact ⟨ir, List.mem_cons_of_mem _ hir, errs, he⟩

-- --- C8 ---

/-- C8: every record returned by `extractRecords` has a non-empty product
code equal to the trimmed, uppercased string form of its row's SKU cell, a
price ≥ 0 (bad price cells leave the default 0 rather than storing a
negative or non-numeric value), and a natural-number sales count (the
sales cell is stringified before `extractSalesNum`, so the numeric
pass-through branch is never taken during extraction). -/
theorem C8_extracted_record_invariants (rawData : List (List Value)) (headerIndex : ℕ)
    (map : ColMap) (ty : DataType) (platform fileName today : String) (now : ℕ)
    (rec : ShoeRecord)
    (h : rec ∈ (extractRecords rawData headerIndex map ty platform fileName today now).1) :
    rec.productCode ≠ "" ∧ 0 ≤ rec.price ∧ (∃ n : ℕ, rec.salesNum = (n : ℚ)) ∧
    ∃ ir ∈ List.enumFrom (headerIndex + 1) (rawData.drop (headerIndex + 1)),
      rec.productCode = jsToUpper (jsTrim (jsString (rowGet ir.2 map.sku))) := by
  rw [extractRecords] at h
  obtain ⟨ir, hir, errs, he⟩ := extractRecordsIdx_mem map ty platform fileName today now _ rec h
  obtain ⟨hcode, hne, hpr, hnat⟩ :=
    extractRow_some_inv map ty platform fileName today now ir.1 ir.2 rec errs he
  refine ⟨hne, hpr, hnat, ir, hir, ?_⟩
  rw [hcode]
  rw [hcode] at hne
  unfold cleanProductCode at hne ⊢
  by_cases ht : truthy (rowGet ir.2 map.sku) = false
  · rw [if_pos ht] at hne
    exact absurd rfl hne
  · rw [if_neg ht]

/-- C8 witness: the invariants applied to the record extracted from the
concrete supplier row `[" a1 ", "5"]`. -/
theorem C8_witness :
    ({ id := "A1-P-f.xlsx-1-7", productCode := "A1", size := "-", price := 5, discount := 10,
       salesRaw := "0", salesNum := 0, platform := "P", sourceFile := "f.xlsx",
       dataType := DataType.SUPPLIER, updateDate := "2026-01-02" } : ShoeRecord) ∈
      (extractRecords [[Value.str "货号"], [Value.str " a1 ", Value.str "5"]] 0 ingestMap
        DataType.SUPPLIER "P" "f.xlsx" "2026-01-02" 7).1 ∧
    ("A1" : String) ≠ "" ∧ (0 : ℚ) ≤ 5 ∧ (∃ n : ℕ, (0 : ℚ) = (n : ℚ)) := by
  have h5 : jsParseFloat "5" = some 5 := by
    rw [jsParseFloat_of_parts (by decide : jsParseFloatParts "5" = some (5, 0))]
    norm_num
  have hmem : ({ id := "A1-P-f.xlsx-1-7", productCode := "A1", size := "-", price := 5,
                 discount := 10, salesRaw := "0", salesNum := 0, platform := "P",
                 sourceFile := "f.xlsx", dataType := DataType.SUPPLIER,
                 updateDate := "2026-01-02" } : ShoeRecord) ∈
      (extractRecords [[Value.str "货号"], [Value.str " a1 ", Value.str "5"]] 0 ingestMap
        DataType.SUPPLIER "P" "f.xlsx" "2026-01-02" 7).1 := by
    simp [extractRecords, extractRecordsIdx, extractRow, priceStep, discountStep, rowGet,
      cleanProductCode, jsString, jsTrim, jsToUpper, truthy, parseFloatValue, h5, ingestMap,
      extractSalesNum]
    norm_num
    decide
  have hinv := C8_extracted_record_invariants
    [[Value.str "货号"], [Value.str " a1 ", Value.str "5"]] 0 ingestMap DataType.SUPPLIER
    "P" "f.xlsx" "2026-01-02" 7 _ hmem
  exact ⟨hmem, hinv.1, hinv.2.1, ⟨0, by norm_num⟩⟩

-- --- Association-map lemmas for the skuMap post-pass ---

/-- Looking up the updated key after `aupd`: an absent key now holds the
candidate; a present key holds the better of candidate and old value. -/
theorem lookupA_aupd_self {β : Type} (better : β → β → Bool) (k : String) (v : β) :
    ∀ m : List (String × β),
      lookupA k (aupd better k v m) =
        some ((lookupA k m).elim v (fun w => if better v w then v else w)) := by
  intro m
  induction m with
  | nil => simp [aupd, lookupA]
  | cons p rest ih =>
      obtain ⟨k₀, w⟩ := p
      by_cases hk : k₀ = k
      · subst hk
        by_cases hb : better v w = true <;> simp [aupd, lookupA, hb]
      · simp [aupd, lookupA, hk, ih]

/-- `aupd` leaves every other key's lookup unchanged. -/
theorem lookupA_aupd_ne {β : Type} (better : β → β → Bool) {k k' : String} (h : k' ≠ k)
    (v : β) : ∀ m : List (String × β), lookupA k' (aupd better k v m) = lookupA k' m := by
  have h' : ¬(k = k') := fun hh => h hh.symm
  intro m
  induction m with
  | nil => simp [aupd, lookupA, h']
  | cons p rest ih =>
      obtain ⟨k₀, w⟩ := p
      by_cases hk : k₀ = k
      · subst hk
        by_cases hb : better v w = true <;> simp [aupd, lookupA, hb, h']
      · simp [aupd, lookupA, hk, ih]

/-- Keys after `aupd`: unchanged when the key is present, appended at the
end when absent. -/
theorem aupd_keys {β : Type} (better : β → β → Bool) (k : String) (v : β) :
    ∀ m : List (String × β),
      (aupd better k v m).map Prod.fst =
        if k ∈ m.map Prod.fst then m.map Prod.fst else m.map Prod.fst ++ [k] := by
  intro m
  induction m with
  | nil => simp [aupd]
  | cons p rest ih =>
      obtain ⟨k₀, w⟩ := p
      by_cases hk : k₀ = k
      · subst hk
        by_cases hb : better v w = true <;> simp [aupd, hb]
      · have hk' : ¬(k = k₀) := fun hh => hk hh.symm
        simp only [aupd, if_neg hk, List.map_cons, ih]
        by_cases hmem : k ∈ rest.map Prod.fst
        · simp [hmem, hk']
        · simp [hmem, hk']

/-- A `none` lookup means the key is absent. -/
theorem lookupA_eq_none {β : Type} (k : String) :
    ∀ m : List (String × β), lookupA k m = none ↔ k ∉ m.map Prod.fst := by
  intro m
  induction m with
  | nil => simp [lookupA]
  | cons p rest ih =>
      obtain ⟨k₀, w⟩ := p
      by_cases hk : k₀ = k
      · subst hk
        simp [lookupA]
      · have hk' : ¬(k = k₀) := fun hh => hk hh.symm
        simp [lookupA, hk, hk', ih]

/-- A successful lookup produces an entry of the list. -/
theorem mem_of_lookupA {β : Type} {k : String} {v : β} :
    ∀ {m : List (String × β)}, lookupA k m = some v → (k, v) ∈ m := by
  intro m
  induction m with
  | nil => intro h; exact absurd h (by simp [lookupA])
  | cons p rest ih =>
      obtain ⟨k₀, w⟩ := p
      intro h
      by_cases hk : k₀ = k
      · subst hk
        rw [lookupA, if_pos rfl] at h
        obtain rfl := Option.some.inj h
        exact List.mem_cons_self _ _
      · rw [lookupA, if_neg hk] at h
        exact List.mem_cons_of_mem _ (ih h)

/-- With duplicate-free keys, every entry is found by lookup. -/
theorem lookupA_of_mem_nodup {β : Type} :
    ∀ {m : List (String × β)}, (m.map Prod.fst).Nodup →
      ∀ {k : String} {v : β}, (k, v) ∈ m → lookupA k m = some v := by
  intro m
  induction m with
  | nil => intro _ k v h; exact absurd h (by simp)
  | cons p rest ih =>
      obtain ⟨k₀, w⟩ := p
      intro hnd k v h
      rw [List.map_cons, List.nodup_cons] at hnd
      rcases List.mem_cons.mp h with h1 | h2
      · injection h1 with h1a h1b
        subst h1a
        subst h1b
        simp [lookupA]
      · by_cases hk : k₀ = k
        · subst hk
          exact absurd (List.mem_map_of_mem Prod.fst h2) hnd.1
        · rw [lookupA, if_neg hk]
          exact ih hnd.2 h2

/-- Invariant of the `skuMap` fold: relative to the rows already processed
(`seen`), keys are duplicate-free, each stored entry is a seen result for
its own SKU with the maximum profit among seen results of that SKU, and
every seen result's SKU is a stored key. -/
theorem buildSkuMapGo_inv :
    ∀ (l seen : List ArbitrageResult) (acc : List (String × ArbitrageResult)),
      (acc.map Prod.fst).Nodup →
      (∀ k w, lookupA k acc = some w → w.productCode = k ∧ w ∈ seen ∧
        ∀ r' ∈ seen, r'.productCode = k → r'.profit ≤ w.profit) →
      (∀ k, lookupA k acc = none → ∀ r' ∈ seen, r'.productCode ≠ k) →
      (((l.foldl (fun mp r => aupd (fun a b => decide (b.profit < a.profit)) r.productCode r mp)
          acc).map Prod.fst).Nodup ∧
       (∀ k w, lookupA k (l.foldl (fun mp r =>
            aupd (fun a b => decide (b.profit < a.profit)) r.productCode r mp) acc) = some w →
          w.productCode = k ∧ w ∈ seen ++ l ∧
            ∀ r' ∈ seen ++ l, r'.productCode = k → r'.profit ≤ w.profit) ∧
       (∀ k, lookupA k (l.foldl (fun mp r =>
            aupd (fun a b => decide (b.profit < a.profit)) r.productCode r mp) acc) = none →
          ∀ r' ∈ seen ++ l, r'.productCode ≠ k)) := by
  intro l
  induction l with
  | nil =>
      intro seen acc hnd hsome hnone
      refine ⟨hnd, ?_, ?_⟩
      · simpa using hsome
      · simpa using hnone
  | cons r rest ih =>
      intro seen acc hnd hsome hnone
      have hndA : ((aupd (fun a b => decide (b.profit < a.profit)) r.productCode r acc).map
          Prod.fst).Nodup := by
        rw [aupd_keys]
        by_cases hmem : r.productCode ∈ acc.map Prod.fst
        · rw [if_pos hmem]; exact hnd
        · rw [if_neg hmem]
          simp [List.nodup_append, hnd, hmem]
      have hsomeA : ∀ k w,
          lookupA k (aupd (fun a b => decide (b.profit < a.profit)) r.productCode r acc) = some w →
          w.productCode = k ∧ w ∈ seen ++ [r] ∧
            ∀ r' ∈ seen ++ [r], r'.productCode = k → r'.profit ≤ w.profit := by
        intro k w hlk
        by_cases hk : k = r.productCode
        · subst hk
          rw [lookupA_aupd_self] at hlk
          cases hacc : lookupA r.productCode acc with
          | none =>
              rw [hacc] at hlk
              simp only [Option.elim] at hlk
              obtain rfl := Option.some.inj hlk
              refine ⟨rfl, by simp, ?_⟩
              intro r' hr' hcode
              rcases List.mem_append.mp hr' with hl | hr
              · exact absurd hcode (hnone _ hacc r' hl)
              · rw [List.mem_singleton] at hr
                subst hr
                exact le_refl _
          | some w₀ =>
              rw [hacc] at hlk
              simp only [Option.elim] at hlk
              have hw : (if decide (w₀.profit < r.profit) = true then r else w₀) = w :=
                Option.some.inj hlk
              obtain ⟨hw₀code, hw₀mem, hw₀max⟩ := hsome _ w₀ hacc
              by_cases hb : w₀.profit < r.profit
              · rw [if_pos (decide_eq_true hb)] at hw
                subst hw
                refine ⟨rfl, by simp, ?_⟩
                intro r' hr' hcode
                rcases List.mem_append.mp hr' with hl | hr
                · exact le_trans (hw₀max r' hl hcode) (le_of_lt hb)
                · rw [List.mem_singleton] at hr
                  subst hr
                  exact le_refl _
              · rw [if_neg (by simpa using hb)] at hw
                subst hw
                refine ⟨hw₀code, List.mem_append_left _ hw₀mem, ?_⟩
                intro r' hr' hcode
                rcases List.mem_append.mp hr' with hl | hr
                · exact hw₀max r' hl hcode
                · rw [List.mem_singleton] at hr
                  subst hr
                  exact le_of_not_lt hb
        · rw [lookupA_aupd_ne _ hk] at hlk
          obtain ⟨c1, c2, c3⟩ := hsome k w hlk
          refine ⟨c1, List.mem_append_left _ c2, ?_⟩
          intro r' hr' hcode
          rcases List.mem_append.mp hr' with hl | hr
          · exact c3 r' hl hcode
          · rw [List.mem_singleton] at hr
            subst hr
            exact absurd hcode (fun hh => hk hh.symm)
      have hnoneA : ∀ k,
          lookupA k (aupd (fun a b => decide (b.profit < a.profit)) r.productCode r acc) = none →
          ∀ r' ∈ seen ++ [r], r'.productCode ≠ k := by
        intro k hlk
        have hk : k ≠ r.productCode := by
          intro hh
          subst hh
          rw [lookupA_aupd_self] at hlk
          exact Option.noConfusion hlk
        rw [lookupA_aupd_ne _ hk] at hlk
        intro r' hr'
        rcases List.mem_append.mp hr' with hl | hr
        · exact hnone k hlk r' hl
        · rw [List.mem_singleton] at hr
          subst hr
          exact fun hh => hk hh.symm
      have hres := ih (seen ++ [r]) _ hndA hsomeA hnoneA
      simpa [List.append_assoc] using hres

/-- The `skuMap` invariant at the top level: duplicate-free keys; each
entry is one of the inputs, keyed by its own SKU, with maximal profit for
that SKU; every input's SKU is present. -/
theorem buildSkuMap_inv (l : List ArbitrageResult) :
    ((buildSkuMap l).map Prod.fst).Nodup ∧
    (∀ k w, lookupA k (buildSkuMap l) = some w → w.productCode = k ∧ w ∈ l ∧
      ∀ r' ∈ l, r'.productCode = k → r'.profit ≤ w.profit) ∧
    (∀ k, lookupA k (buildSkuMap l) = none → ∀ r' ∈ l, r'.productCode ≠ k) := by
  have h := buildSkuMapGo_inv l [] []
    (by simp)
    (by intro k w hw; exact absurd hw (by simp [lookupA]))
    (by intro k _ r' hr'; exact absurd hr' (by simp))
  rw [buildSkuMap]
  simpa using h

/-- Every entry of the built `skuMap` is an input of maximal profit for
its key. -/
theorem buildSkuMap_entry (l : List ArbitrageResult) {p : String × ArbitrageResult}
    (hp : p ∈ buildSkuMap l) :
    p.2.productCode = p.1 ∧ p.2 ∈ l ∧
      ∀ r' ∈ l, r'.productCode = p.1 → r'.profit ≤ p.2.profit := by
  obtain ⟨hnd, hsome, -⟩ := buildSkuMap_inv l
  have hl : lookupA p.1 (buildSkuMap l) = some p.2 := by
    obtain ⟨k, v⟩ := p
    exact lookupA_of_mem_nodup hnd hp
  exact hsome p.1 p.2 hl

/-- In an association list with duplicate-free keys whose entries are
keyed by their own SKU, the number of values carrying a given SKU is one
when the key is present and zero otherwise. -/
theorem filter_snd_length (s : String) :
    ∀ m : List (String × ArbitrageResult), (m.map Prod.fst).Nodup →
      (∀ p ∈ m, p.2.productCode = p.1) →
      ((m.map Prod.snd).filter (fun r => decide (r.productCode = s))).length =
        if s ∈ m.map Prod.fst then 1 else 0 := by
  intro m
  induction m with
  | nil => intro _ _; simp
  | cons p rest ih =>
      obtain ⟨k, w⟩ := p
      intro hnd hcode
      have hwcode : w.productCode = k := hcode (k, w) (List.mem_cons_self _ _)
      rw [List.map_cons, List.nodup_cons] at hnd
      have ihr := ih hnd.2 (fun q hq => hcode q (List.mem_cons_of_mem _ hq))
      by_cases hks : k = s
      · subst hks
        have hzero :
            ((rest.map Prod.snd).filter (fun r => decide (r.productCode = k))).length = 0 := by
          rw [ihr, if_neg hnd.1]
        simp [List.filter_cons, hwcode, hzero]
      · have hsk : ¬(s = k) := fun hh => hks hh.symm
        have hwns : ¬(w.productCode = s) := by rw [hwcode]; exact hks
        rw [List.map_cons, List.map_cons, List.filter_cons_of_neg (by simp [hwns]), ihr]
        by_cases hm : s ∈ List.map Prod.fst rest
        · rw [if_pos hm, if_pos (List.mem_cons_of_mem _ hm)]
        · rw [if_neg hm, if_neg (by simp [List.mem_cons, hsk, hm])]

/-- Every emitted arbitrage result arises from some purchase row via
`rowResult`. -/
theorem processArbitrage_mem (cfg : ArbCfg) (md : List ShoeRecord) (f d : String)
    (rows : List (List Value)) {res : ArbitrageResult}
    (h : res ∈ processArbitrage cfg md f d rows) :
    ∃ row ∈ rows, rowResult cfg md f d row = some res := by
  rw [processArbitrage, List.mem_insertionSort] at h
  obtain ⟨p, hp, hps⟩ := List.mem_map.mp h
  have hentry := buildSkuMap_entry _ hp
  rw [hps] at hentry
  exact List.mem_filterMap.mp hentry.2.1

/-- The four financial formulas hold for every result emitted by the row
loop of `processArbitrage`. -/
theorem rowResult_financials (cfg : ArbCfg) (md : List ShoeRecord) (f d : String)
    (row : List Value) (res : ArbitrageResult) (h : rowResult cfg md f d row = some res) :
    res.costPrice = res.tagPrice * (effectiveDiscountOf cfg row / 10) ∧
    res.netRevenue = (if res.marketPrice > 0 then res.marketPrice * (88 / 100) else 0) ∧
    res.profit = (if res.marketPrice > 0 then res.netRevenue - res.costPrice else -res.costPrice) ∧
    res.roi = (if res.costPrice > 0 ∧ res.marketPrice > 0 then res.profit / res.costPrice else 0) := by
  by_cases h1 : truthy (rowGet row cfg.skuIdx) = false
  · rw [rowResult, if_pos h1] at h
    exact absurd h (by simp)
  rw [rowResult, if_neg h1] at h
  by_cases h2 : cleanProductCode (rowGet row cfg.skuIdx) = ""
  · rw [if_pos h2] at h
    exact absurd h (by simp)
  rw [if_neg h2] at h
  dsimp only at h
  obtain rfl := Option.some.inj h
  exact ⟨rfl, rfl, rfl, rfl⟩

-- --- C1 ---

/-- C1: for every processed purchase row with tag price t, effective
discount d and matched market price m: cost = t × (d / 10); net revenue =
m × 0.88 when m > 0 else 0; profit = net revenue − cost when m > 0 else
−cost; ROI = profit / cost when cost > 0 and m > 0 else 0 — and every
result of the final output with market price 0 has profit equal to the
negated cost price and ROI 0. -/
theorem C1_financial_formulas :
    (∀ (cfg : ArbCfg) (md : List ShoeRecord) (f d : String) (row : List Value)
        (res : ArbitrageResult), rowResult cfg md f d row = some res →
      res.costPrice = res.tagPrice * (effectiveDiscountOf cfg row / 10) ∧
      res.netRevenue = (if res.marketPrice > 0 then res.marketPrice * (88 / 100) else 0) ∧
      res.profit =
        (if res.marketPrice > 0 then res.netRevenue - res.costPrice else -res.costPrice) ∧
      res.roi =
        (if res.costPrice > 0 ∧ res.marketPrice > 0 then res.profit / res.costPrice else 0)) ∧
    (∀ (cfg : ArbCfg) (md : List ShoeRecord) (f d : String) (rows : List (List Value))
        (res : ArbitrageResult), res ∈ processArbitrage cfg md f d rows →
      res.marketPrice = 0 → res.profit = -res.costPrice ∧ res.roi = 0) := by
  refine ⟨fun cfg md f d row res h => rowResult_financials cfg md f d row res h, ?_⟩
  intro cfg md f d rows res hmem hmp
  obtain ⟨row, hrow, hres⟩ := processArbitrage_mem cfg md f d rows hmem
  obtain ⟨-, -, hprofit, hroi⟩ := rowResult_financials cfg md f d row res hres
  constructor
  · rw [hprofit, hmp]
    simp
  · rw [hroi, hmp]
    simp

/-- C1 witness: the unmatched-SKU rule applied to the concrete purchase
row `["A", "780"]` against an empty store: market price 0, profit −cost,
ROI 0. -/
theorem C1_witness :
    processArbitrage buyCfg [] "buy.xlsx" "2026-01-02" [[Value.str "A", Value.str "780"]] =
      [unmatchedA] ∧
    unmatchedA ∈ processArbitrage buyCfg [] "buy.xlsx" "2026-01-02"
      [[Value.str "A", Value.str "780"]] ∧
    unmatchedA.marketPrice = 0 ∧ unmatchedA.profit = -unmatchedA.costPrice ∧
    unmatchedA.roi = 0 := by
  have h780 : jsParseFloat "780" = some 780 := by
    rw [jsParseFloat_of_parts (by decide : jsParseFloatParts "780" = some (780, 0))]
    norm_num
  have hrow : rowResult buyCfg [] "buy.xlsx" "2026-01-02" [Value.str "A", Value.str "780"] =
      some unmatchedA := by
    simp [rowResult, buyCfg, rowGet, truthy, cleanProductCode, jsString, jsTrim, jsToUpper,
      parseFloatValue, h780, effectiveDiscountOf, List.filter, unmatchedA]
  have hfm : List.filterMap (rowResult buyCfg [] "buy.xlsx" "2026-01-02")
      [[Value.str "A", Value.str "780"]] = [unmatchedA] := by
    rw [List.filterMap_cons, hrow]
    rfl
  have hout : processArbitrage buyCfg [] "buy.xlsx" "2026-01-02"
      [[Value.str "A", Value.str "780"]] = [unmatchedA] := by
    rw [processArbitrage, hfm]
    rfl
  have hmem : unmatchedA ∈ processArbitrage buyCfg [] "buy.xlsx" "2026-01-02"
      [[Value.str "A", Value.str "780"]] := by
    rw [hout]
    exact List.mem_singleton.mpr rfl
  have hconc := C1_financial_formulas.2 buyCfg [] "buy.xlsx" "2026-01-02"
    [[Value.str "A", Value.str "780"]] unmatchedA hmem rfl
  exact ⟨hout, hmem, rfl, hconc.1, hconc.2⟩

-- --- C2 ---

/-- C2: when a normalized SKU appears on more than one processed purchase
row, the matcher's final output contains exactly one result for that SKU;
that result is one of the SKU's row results and its profit is the maximum
profit among them; and the final output is sorted by profit in descending
order. -/
theorem C2_dedup_and_sort (cfg : ArbCfg) (md : List ShoeRecord) (f d : String)
    (rows : List (List Value)) (sku : String)
    (hdup : 2 ≤ ((rows.filterMap (rowResult cfg md f d)).filter
      (fun r => decide (r.productCode = sku))).length) :
    ((processArbitrage cfg md f d rows).filter
      (fun r => decide (r.productCode = sku))).length = 1 ∧
    (∀ res ∈ processArbitrage cfg md f d rows, res.productCode = sku →
      res ∈ rows.filterMap (rowResult cfg md f d) ∧
      ∀ r' ∈ rows.filterMap (rowResult cfg md f d), r'.productCode = sku →
        r'.profit ≤ res.profit) ∧
    List.Sorted profitGe (processArbitrage cfg md f d rows) := by
  obtain ⟨hnd, hsome, hnone⟩ := buildSkuMap_inv (rows.filterMap (rowResult cfg md f d))
  have hex : ∃ r ∈ rows.filterMap (rowResult cfg md f d), r.productCode = sku := by
    have hpos : ((rows.filterMap (rowResult cfg md f d)).filter
        (fun r => decide (r.productCode = sku))) ≠ [] := by
      intro hnil
      rw [hnil] at hdup
      exact absurd hdup (by norm_num)
    obtain ⟨r, hr⟩ := List.exists_mem_of_ne_nil _ hpos
    rw [List.mem_filter] at hr
    exact ⟨r, hr.1, by simpa using hr.2⟩
  have hsku_keys : sku ∈ (buildSkuMap (rows.filterMap (rowResult cfg md f d))).map Prod.fst := by
    by_contra hcon
    have hn : lookupA sku (buildSkuMap (rows.filterMap (rowResult cfg md f d))) = none :=
      (lookupA_eq_none _ _).mpr hcon
    obtain ⟨r, hrm, hrc⟩ := hex
    exact (hnone sku hn r hrm) hrc
  refine ⟨?_, ?_, List.sorted_insertionSort profitGe _⟩
  · have hperm : List.Perm (processArbitrage cfg md f d rows)
        ((buildSkuMap (rows.filterMap (rowResult cfg md f d))).map Prod.snd) :=
      List.perm_insertionSort _ _
    rw [(hperm.filter _).length_eq]
    rw [filter_snd_length sku _ hnd
      (fun p hp => (buildSkuMap_entry (rows.filterMap (rowResult cfg md f d)) hp).1)]
    rw [if_pos hsku_keys]
  · intro res hres hcode
    have hresl : res ∈ rows.filterMap (rowResult cfg md f d) := by
      obtain ⟨row, hrow, hrr⟩ := processArbitrage_mem cfg md f d rows hres
      exact List.mem_filterMap.mpr ⟨row, hrow, hrr⟩
    refine ⟨hresl, ?_⟩
    rw [processArbitrage, List.mem_insertionSort] at hres
    obtain ⟨p, hp, hps⟩ := List.mem_map.mp hres
    have hentry := buildSkuMap_entry (rows.filterMap (rowResult cfg md f d)) hp
    have hp1 : p.1 = sku := by
      rw [← hentry.1, hps, hcode]
    intro r' hr' hr'c
    have hmax := hentry.2.2 r' hr' (by rw [hp1]; exact hr'c)
    rw [hps] at hmax
    exact hmax

/-- C2 witness: two purchase rows with the same SKU "A" and profits 100
and 150 against a store with one market price; the matcher's final output
holds exactly one result for "A", and is sorted by profit descending. -/
theorem C2_witness :
    2 ≤ (([[Value.str "A", Value.str "780"], [Value.str "A", Value.str "730"]].filterMap
        (rowResult buyCfg [storedMarketA] "buy.xlsx" "2026-01-02")).filter
        (fun r => decide (r.productCode = "A"))).length ∧
    ((processArbitrage buyCfg [storedMarketA] "buy.xlsx" "2026-01-02"
        [[Value.str "A", Value.str "780"], [Value.str "A", Value.str "730"]]).filter
        (fun r => decide (r.productCode = "A"))).length = 1 ∧
    List.Sorted profitGe (processArbitrage buyCfg [storedMarketA] "buy.xlsx" "2026-01-02"
        [[Value.str "A", Value.str "780"], [Value.str "A", Value.str "730"]]) := by
  have h780 : jsParseFloat "780" = some 780 := by
    rw [jsParseFloat_of_parts (by decide : jsParseFloatParts "780" = some (780, 0))]
    norm_num
  have h730 : jsParseFloat "730" = some 730 := by
    rw [jsParseFloat_of_parts (by decide : jsParseFloatParts "730" = some (730, 0))]
    norm_num
  have hrow1 : rowResult buyCfg [storedMarketA] "buy.xlsx" "2026-01-02"
      [Value.str "A", Value.str "780"] = some buy780A := by
    simp [rowResult, buyCfg, rowGet, truthy, cleanProductCode, jsString, jsTrim, jsToUpper,
      parseFloatValue, h780, effectiveDiscountOf, List.filter, buy780A, storedMarketA]
    norm_num
  have hrow2 : rowResult buyCfg [storedMarketA] "buy.xlsx" "2026-01-02"
      [Value.str "A", Value.str "730"] = some buy730A := by
    simp [rowResult, buyCfg, rowGet, truthy, cleanProductCode, jsString, jsTrim, jsToUpper,
      parseFloatValue, h730, effectiveDiscountOf, List.filter, buy730A, storedMarketA]
    norm_num
  have hfm : [[Value.str "A", Value.str "780"], [Value.str "A", Value.str "730"]].filterMap
      (rowResult buyCfg [storedMarketA] "buy.xlsx" "2026-01-02") = [buy780A, buy730A] := by
    rw [List.filterMap_cons, hrow1, List.filterMap_cons, hrow2]
    rfl
  have hdup : 2 ≤ (([[Value.str "A", Value.str "780"],
      [Value.str "A", Value.str "730"]].filterMap
        (rowResult buyCfg [storedMarketA] "buy.xlsx" "2026-01-02")).filter
        (fun r => decide (r.productCode = "A"))).length := by
    rw [hfm]
    simp [buy780A, buy730A]
  have hmain := C2_dedup_and_sort buyCfg [storedMarketA] "buy.xlsx" "2026-01-02"
    [[Value.str "A", Value.str "780"], [Value.str "A", Value.str "730"]] "A" hdup
  exact ⟨hdup, hmain.1, hmain.2.2⟩

/-- C3 witness: the last-match rule evaluated on the two-cell header
`["SKU", "货号"]`, where the recorded sku column is index 1. -/
theorem C3_witness :
    (autoDetectColumns [Value.str "SKU", Value.str "货号"]).sku =
      lastMatchIdx skuKeys [Value.str "SKU", Value.str "货号"] ∧
    lastMatchIdx skuKeys [Value.str "SKU", Value.str "货号"] = 1 :=
  ⟨(C3_column_mapper_last_match [Value.str "SKU", Value.str "货号"]).1, by decide⟩

/-- C5 witness: the completeness policy evaluated at a mapping with SKU
and price present on a market-price import (accepted), applied through the
characterization. -/
theorem C5_witness :
    isComplete false ⟨0, -1, 1, -1, -1⟩ DataType.MARKET = true :=
  (C5_completeness_policy false ⟨0, -1, 1, -1, -1⟩ DataType.MARKET).mpr
    (Or.inr ⟨by decide, Or.inr (by decide), Or.inl (by decide)⟩)
